import Mathlib

/-!
Shallow embedding of the Tink JavaScript ECDSA public-key manager and the
wrapped public-key-verify primitive
(src/javascript/signature/ecdsa_public_key_manager.ts), together with proofs
of the behavioural properties of the dispatch/fallback algorithm and of the
key-manager validation.

Byte arrays (Uint8Array) are modelled as `List Nat`; a thrown exception or a
rejected promise is modelled as `Except.error` carrying the message string.
-/

deriving instance DecidableEq for Except

namespace Tink

/-- Uint8Array contents. -/
abbrev Bytes := List Nat

/-- PbKeyStatusType from internal/proto (the key-status enum). -/
inductive PbKeyStatusType
  | ENABLED
  | DISABLED
  | DESTROYED
  | UNKNOWN_STATUS
  deriving DecidableEq, Repr

/-- A PublicKeyVerify primitive: verify(signature, data) resolves to a boolean
or rejects (throws), modelled as `Except`. -/
def PublicKeyVerify : Type := Bytes → Bytes → Except String Bool

/-- The slice of PrimitiveSet.Entry read by WrappedPublicKeyVerify:
getPrimitive() and getKeyStatus(). -/
structure Entry where
  primitive : PublicKeyVerify
  keyStatus : PbKeyStatusType

/-- The slice of PrimitiveSet.PrimitiveSet used by WrappedPublicKeyVerify.
internal/primitive_set.ts is outside src/; the wrapper claims quantify over
every primitive set, so the set is kept abstract: getPrimitives(keyId) yields
the entries stored under that identifier in insertion order, getRawPrimitives
the RAW entries in insertion order. -/
structure PrimitiveSet where
  getPrimitives : Bytes → List Entry
  getRawPrimitives : List Entry

/-- Modelled from the spec: CryptoFormat.NON_RAW_PREFIX_SIZE
(internal/crypto_format.ts is not under src/). The spec fixes the non-raw
output prefix to a constant number of bytes (a 4/5-byte key identifier tag);
Tink uses 5. No claim below depends on the numeric value. -/
def NON_RAW_PREFIX_SIZE : Nat := 5

/-- WrappedPublicKeyVerify.tryVerification_: walks the entries in order,
skips entries whose status is not ENABLED, swallows a throwing primitive and
moves on, returns true at the first primitive that reports valid, and false
when the list is exhausted. -/
def tryVerification (primitives : List Entry) (signature data : Bytes) : Bool :=
  match primitives with
  | [] => false
  | e :: rest =>
    if e.keyStatus ≠ PbKeyStatusType.ENABLED then
      tryVerification rest signature data
    else
      match e.primitive signature data with
      | Except.error _ => tryVerification rest signature data
      | Except.ok isValid =>
        if isValid then isValid else tryVerification rest signature data

/-- WrappedPublicKeyVerify.verify after the Uint8Array checks: when the
signature is longer than NON_RAW_PREFIX_SIZE, split off the key-id prefix,
try the entries stored under it on the remainder, and on failure fall through
to the raw entries with the full signature; otherwise only the raw entries
are tried. -/
def verifyCore (ps : PrimitiveSet) (signature data : Bytes) : Bool :=
  if NON_RAW_PREFIX_SIZE < signature.length then
    let keyId := signature.take NON_RAW_PREFIX_SIZE
    let primitives := ps.getPrimitives keyId
    let rawSignature := signature.drop NON_RAW_PREFIX_SIZE
    let isValid := tryVerification primitives rawSignature data
    if isValid then isValid
    else tryVerification ps.getRawPrimitives signature data
  else
    tryVerification ps.getRawPrimitives signature data

/-- A JavaScript argument position that should hold a Uint8Array: either it
does, or it holds some other value. -/
inductive JsValue
  | uint8array (bytes : Bytes)
  | notUint8Array

/-- Modelled from the spec: Validators.requireUint8Array
(subtle/validators.ts is not under src/). It throws a SecurityException
exactly when the argument is not a Uint8Array. -/
def requireUint8Array : JsValue → Except String Bytes
  | JsValue.uint8array b => Except.ok b
  | JsValue.notUint8Array => Except.error "input must be a non null Uint8Array"

/-- WrappedPublicKeyVerify.verify: validates that both arguments are
Uint8Arrays (propagating the exception otherwise), then runs the two-phase
dispatch. -/
def verify (ps : PrimitiveSet) (signature data : JsValue) : Except String Bool := do
  let s ← requireUint8Array signature
  let d ← requireUint8Array data
  pure (verifyCore ps s d)

/-- Which phase of verify an invocation happened in: the tagged-prefix phase
or the raw phase. -/
inductive Phase
  | taggedPhase
  | rawPhase
  deriving DecidableEq, Repr

/-- Instrumented tryVerification_: identical control flow, but also returns
the 0-based positions of the entries whose primitive was actually invoked,
in invocation order. -/
def tryVerificationT : List Entry → Bytes → Bytes → Bool × List Nat
  | [], _, _ => (false, [])
  | e :: rest, signature, data =>
    if e.keyStatus ≠ PbKeyStatusType.ENABLED then
      let r := tryVerificationT rest signature data
      (r.1, r.2.map (· + 1))
    else
      match e.primitive signature data with
      | Except.error _ =>
        let r := tryVerificationT rest signature data
        (r.1, 0 :: r.2.map (· + 1))
      | Except.ok isValid =>
        if isValid then (true, [0])
        else
          let r := tryVerificationT rest signature data
          (r.1, 0 :: r.2.map (· + 1))

/-- Instrumented verify (after the Uint8Array checks): identical control flow
to verifyCore, but also returns the phase-tagged positions of the entries
whose primitive was invoked, in invocation order. -/
def verifyT (ps : PrimitiveSet) (signature data : Bytes) :
    Bool × List (Phase × Nat) :=
  if NON_RAW_PREFIX_SIZE < signature.length then
    let r1 := tryVerificationT (ps.getPrimitives (signature.take NON_RAW_PREFIX_SIZE))
      (signature.drop NON_RAW_PREFIX_SIZE) data
    if r1.1 then (r1.1, r1.2.map (fun i => (Phase.taggedPhase, i)))
    else
      let r2 := tryVerificationT ps.getRawPrimitives signature data
      (r2.1, r1.2.map (fun i => (Phase.taggedPhase, i)) ++
        r2.2.map (fun i => (Phase.rawPhase, i)))
  else
    let r2 := tryVerificationT ps.getRawPrimitives signature data
    (r2.1, r2.2.map (fun i => (Phase.rawPhase, i)))

/-- An entry genuinely validates the input: it is ENABLED and its primitive
resolves to true. -/
def entrySucceeds (e : Entry) (signature data : Bytes) : Prop :=
  e.keyStatus = PbKeyStatusType.ENABLED ∧
    e.primitive signature data = Except.ok true

/-- Boolean form of entrySucceeds. -/
def succeedsB (e : Entry) (signature data : Bytes) : Bool :=
  decide (e.keyStatus = PbKeyStatusType.ENABLED) &&
    decide (e.primitive signature data = Except.ok true)

/-- Position i of the list is invoked by tryVerification_: the entry there is
ENABLED and no earlier entry succeeds. -/
def triedAt (l : List Entry) (signature data : Bytes) (i : Nat) : Bool :=
  match l[i]? with
  | none => false
  | some e =>
    decide (e.keyStatus = PbKeyStatusType.ENABLED) &&
      (l.take i).all (fun p => ! succeedsB p signature data)

/-- The positions tryVerification_ is expected to invoke: every ENABLED
position up to and including the first succeeding one, in order. -/
def traceSpec (l : List Entry) (signature data : Bytes) : List Nat :=
  (List.range l.length).filter (triedAt l signature data)

theorem succeedsB_eq_true_iff (e : Entry) (s d : Bytes) :
    succeedsB e s d = true ↔ entrySucceeds e s d := by
  simp [succeedsB, entrySucceeds]

theorem tryVerification_cons (e : Entry) (rest : List Entry) (s d : Bytes) :
    tryVerification (e :: rest) s d =
      if succeedsB e s d then true else tryVerification rest s d := by
  cases hp : e.primitive s d with
  | error m =>
    by_cases hs : e.keyStatus = PbKeyStatusType.ENABLED <;>
      simp [tryVerification, succeedsB, hs, hp]
  | ok b =>
    by_cases hs : e.keyStatus = PbKeyStatusType.ENABLED <;> cases b <;>
      simp [tryVerification, succeedsB, hs, hp]

theorem tryVerification_eq_any (l : List Entry) (s d : Bytes) :
    tryVerification l s d = l.any (fun e => succeedsB e s d) := by
  induction l with
  | nil => rfl
  | cons e rest ih =>
    rw [tryVerification_cons, List.any_cons, ih]
    cases h : succeedsB e s d <;> simp

theorem tryVerification_eq_true_iff (l : List Entry) (s d : Bytes) :
    tryVerification l s d = true ↔ ∃ e ∈ l, entrySucceeds e s d := by
  simp only [tryVerification_eq_any, List.any_eq_true, succeedsB_eq_true_iff]

theorem tryVerification_eq_false_iff (l : List Entry) (s d : Bytes) :
    tryVerification l s d = false ↔ ∀ e ∈ l, ¬ entrySucceeds e s d := by
  rw [← Bool.not_eq_true, tryVerification_eq_true_iff]
  push_neg
  rfl

theorem verifyCore_eq_true_iff (ps : PrimitiveSet) (s d : Bytes) :
    verifyCore ps s d = true ↔
      ((NON_RAW_PREFIX_SIZE < s.length ∧
        ∃ e ∈ ps.getPrimitives (s.take NON_RAW_PREFIX_SIZE),
          entrySucceeds e (s.drop NON_RAW_PREFIX_SIZE) d) ∨
       ∃ e ∈ ps.getRawPrimitives, entrySucceeds e s d) := by
  by_cases hl : NON_RAW_PREFIX_SIZE < s.length
  · by_cases hv : tryVerification (ps.getPrimitives (s.take NON_RAW_PREFIX_SIZE))
        (s.drop NON_RAW_PREFIX_SIZE) d = true
    · have hv' := (tryVerification_eq_true_iff _ _ _).1 hv
      simp [verifyCore, hl, hv, hv']
    · have hv' : ¬ ∃ e ∈ ps.getPrimitives (s.take NON_RAW_PREFIX_SIZE),
          entrySucceeds e (s.drop NON_RAW_PREFIX_SIZE) d := by
        rw [← tryVerification_eq_true_iff]
        exact hv
      rw [Bool.not_eq_true] at hv
      simp [verifyCore, hl, hv, hv', tryVerification_eq_true_iff]
  · simp [verifyCore, hl, tryVerification_eq_true_iff]

theorem tryVerificationT_fst (l : List Entry) (s d : Bytes) :
    (tryVerificationT l s d).1 = tryVerification l s d := by
  induction l with
  | nil => rfl
  | cons e rest ih =>
    cases hp : e.primitive s d with
    | error m =>
      by_cases hs : e.keyStatus = PbKeyStatusType.ENABLED <;>
        simp [tryVerificationT, tryVerification, hs, hp, ih]
    | ok b =>
      by_cases hs : e.keyStatus = PbKeyStatusType.ENABLED <;> cases b <;>
        simp [tryVerificationT, tryVerification, hs, hp, ih]

theorem triedAt_cons_zero (e : Entry) (rest : List Entry) (s d : Bytes) :
    triedAt (e :: rest) s d 0 = decide (e.keyStatus = PbKeyStatusType.ENABLED) := by
  simp [triedAt]

theorem triedAt_cons_succ (e : Entry) (rest : List Entry) (s d : Bytes) (i : Nat) :
    triedAt (e :: rest) s d (i + 1) =
      (! succeedsB e s d && triedAt rest s d i) := by
  cases hq : rest[i]? with
  | none => simp [triedAt, hq]
  | some p => simp [triedAt, hq, Bool.and_left_comm]

theorem map_succ_eq_map_add_one (l : List Nat) :
    l.map Nat.succ = l.map (· + 1) := rfl

theorem traceSpec_cons (e : Entry) (rest : List Entry) (s d : Bytes) :
    traceSpec (e :: rest) s d =
      (if e.keyStatus = PbKeyStatusType.ENABLED then [0] else []) ++
        (if succeedsB e s d then []
         else (traceSpec rest s d).map (· + 1)) := by
  unfold traceSpec
  rw [List.length_cons, List.range_succ_eq_map, List.filter_cons, List.filter_map]
  have hcomp : (triedAt (e :: rest) s d) ∘ Nat.succ =
      fun i => (! succeedsB e s d && triedAt rest s d i) := by
    funext i
    simp [Function.comp, Nat.succ_eq_add_one, triedAt_cons_succ]
  rw [hcomp]
  by_cases hsucc : succeedsB e s d = true
  · have hen : e.keyStatus = PbKeyStatusType.ENABLED :=
      ((succeedsB_eq_true_iff e s d).1 hsucc).1
    simp [triedAt_cons_zero, hen, hsucc]
  · rw [Bool.not_eq_true] at hsucc
    by_cases hen : e.keyStatus = PbKeyStatusType.ENABLED <;>
      simp [triedAt_cons_zero, hen, hsucc, map_succ_eq_map_add_one]

theorem tryVerificationT_snd (l : List Entry) (s d : Bytes) :
    (tryVerificationT l s d).2 = traceSpec l s d := by
  induction l with
  | nil => rfl
  | cons e rest ih =>
    rw [traceSpec_cons]
    cases hp : e.primitive s d with
    | error m =>
      by_cases hs : e.keyStatus = PbKeyStatusType.ENABLED <;>
        simp [tryVerificationT, hs, hp, ih, succeedsB]
    | ok b =>
      by_cases hs : e.keyStatus = PbKeyStatusType.ENABLED <;> cases b <;>
        simp [tryVerificationT, hs, hp, ih, succeedsB]

theorem verifyT_fst (ps : PrimitiveSet) (s d : Bytes) :
    (verifyT ps s d).1 = verifyCore ps s d := by
  by_cases hl : NON_RAW_PREFIX_SIZE < s.length
  · by_cases hv : tryVerification (ps.getPrimitives (s.take NON_RAW_PREFIX_SIZE))
        (s.drop NON_RAW_PREFIX_SIZE) d = true
    · simp [verifyT, verifyCore, hl, hv, tryVerificationT_fst]
    · rw [Bool.not_eq_true] at hv
      simp [verifyT, verifyCore, hl, hv, tryVerificationT_fst]
  · simp [verifyT, verifyCore, hl, tryVerificationT_fst]

theorem verifyT_snd (ps : PrimitiveSet) (s d : Bytes) :
    (verifyT ps s d).2 =
      if NON_RAW_PREFIX_SIZE < s.length then
        (traceSpec (ps.getPrimitives (s.take NON_RAW_PREFIX_SIZE))
            (s.drop NON_RAW_PREFIX_SIZE) d).map (fun i => (Phase.taggedPhase, i)) ++
          (if tryVerification (ps.getPrimitives (s.take NON_RAW_PREFIX_SIZE))
              (s.drop NON_RAW_PREFIX_SIZE) d then []
           else (traceSpec ps.getRawPrimitives s d).map (fun i => (Phase.rawPhase, i)))
      else (traceSpec ps.getRawPrimitives s d).map (fun i => (Phase.rawPhase, i)) := by
  by_cases hl : NON_RAW_PREFIX_SIZE < s.length
  · by_cases hv : tryVerification (ps.getPrimitives (s.take NON_RAW_PREFIX_SIZE))
        (s.drop NON_RAW_PREFIX_SIZE) d = true
    · simp [verifyT, hl, hv, tryVerificationT_fst, tryVerificationT_snd]
    · rw [Bool.not_eq_true] at hv
      simp [verifyT, hl, hv, tryVerificationT_fst, tryVerificationT_snd]
  · simp [verifyT, hl, tryVerificationT_snd]

/-- Two entry lists agree except possibly in the primitives of entries whose
status is not ENABLED: same length, pointwise equal statuses, and pointwise
equal primitives wherever the status is ENABLED. -/
def SameEnabled : List Entry → List Entry → Prop
  | [], [] => True
  | e :: l, f :: l' =>
    e.keyStatus = f.keyStatus ∧
      (e.keyStatus = PbKeyStatusType.ENABLED → e.primitive = f.primitive) ∧
      SameEnabled l l'
  | _, _ => False

theorem succeedsB_congr (e f : Entry) (hst : e.keyStatus = f.keyStatus)
    (hprim : e.keyStatus = PbKeyStatusType.ENABLED → e.primitive = f.primitive)
    (s d : Bytes) : succeedsB e s d = succeedsB f s d := by
  by_cases hs : e.keyStatus = PbKeyStatusType.ENABLED
  · rw [succeedsB, succeedsB, ← hst, hprim hs]
  · rw [succeedsB, succeedsB, ← hst]
    simp [hs]

theorem tryVerification_congr (l l' : List Entry) (h : SameEnabled l l')
    (s d : Bytes) : tryVerification l s d = tryVerification l' s d := by
  induction l generalizing l' with
  | nil =>
    cases l' with
    | nil => rfl
    | cons f t' => exact absurd h (by simp [SameEnabled])
  | cons e t ih =>
    cases l' with
    | nil => exact absurd h (by simp [SameEnabled])
    | cons f t' =>
      obtain ⟨hst, hprim, htail⟩ := h
      rw [tryVerification_cons, tryVerification_cons, ih t' htail,
        succeedsB_congr e f hst hprim]

theorem verifyCore_congr (ps ps' : PrimitiveSet)
    (hpre : ∀ k, SameEnabled (ps.getPrimitives k) (ps'.getPrimitives k))
    (hraw : SameEnabled ps.getRawPrimitives ps'.getRawPrimitives)
    (s d : Bytes) : verifyCore ps s d = verifyCore ps' s d := by
  simp only [verifyCore]
  rw [tryVerification_congr _ _ (hpre (s.take NON_RAW_PREFIX_SIZE))
      (s.drop NON_RAW_PREFIX_SIZE) d,
    tryVerification_congr _ _ hraw s d]

theorem verify_congr (ps ps' : PrimitiveSet)
    (hpre : ∀ k, SameEnabled (ps.getPrimitives k) (ps'.getPrimitives k))
    (hraw : SameEnabled ps.getRawPrimitives ps'.getRawPrimitives)
    (sig dat : JsValue) : verify ps sig dat = verify ps' sig dat := by
  cases sig with
  | notUint8Array => rfl
  | uint8array s =>
    cases dat with
    | notUint8Array => rfl
    | uint8array d =>
      simp only [verify, requireUint8Array, pure, Except.pure, bind, Except.bind]
      rw [verifyCore_congr ps ps' hpre hraw s d]

/-- The entry list a phase of verify draws its candidates from. -/
def phaseEntries (ps : PrimitiveSet) (s : Bytes) : Phase → List Entry
  | Phase.taggedPhase => ps.getPrimitives (s.take NON_RAW_PREFIX_SIZE)
  | Phase.rawPhase => ps.getRawPrimitives

theorem triedAt_enabled (l : List Entry) (s d : Bytes) (i : Nat)
    (h : triedAt l s d i = true) :
    ∃ e, l[i]? = some e ∧ e.keyStatus = PbKeyStatusType.ENABLED := by
  unfold triedAt at h
  cases hq : l[i]? with
  | none => rw [hq] at h; cases h
  | some e =>
    rw [hq] at h
    simp only [Bool.and_eq_true, decide_eq_true_eq] at h
    exact ⟨e, rfl, h.1⟩

theorem mem_traceSpec_enabled (l : List Entry) (s d : Bytes) (i : Nat)
    (h : i ∈ traceSpec l s d) :
    ∃ e, l[i]? = some e ∧ e.keyStatus = PbKeyStatusType.ENABLED := by
  unfold traceSpec at h
  exact triedAt_enabled l s d i (List.of_mem_filter h)

theorem mem_verifyT_enabled (ps : PrimitiveSet) (s d : Bytes) (ph : Phase)
    (i : Nat) (h : (ph, i) ∈ (verifyT ps s d).2) :
    ∃ e, (phaseEntries ps s ph)[i]? = some e ∧
      e.keyStatus = PbKeyStatusType.ENABLED := by
  rw [verifyT_snd] at h
  by_cases hl : NON_RAW_PREFIX_SIZE < s.length
  · rw [if_pos hl] at h
    rcases List.mem_append.1 h with hm | hm
    · obtain ⟨j, hj, hji⟩ := List.mem_map.1 hm
      obtain ⟨rfl, rfl⟩ : Phase.taggedPhase = ph ∧ j = i := by
        constructor <;> [exact (Prod.mk.injEq _ _ _ _ ▸ hji).1;
          exact (Prod.mk.injEq _ _ _ _ ▸ hji).2]
      exact mem_traceSpec_enabled _ _ _ _ hj
    · by_cases hv : tryVerification (ps.getPrimitives (s.take NON_RAW_PREFIX_SIZE))
          (s.drop NON_RAW_PREFIX_SIZE) d = true
      · rw [if_pos hv] at hm
        cases hm
      · rw [if_neg hv] at hm
        obtain ⟨j, hj, hji⟩ := List.mem_map.1 hm
        obtain ⟨rfl, rfl⟩ : Phase.rawPhase = ph ∧ j = i := by
          constructor <;> [exact (Prod.mk.injEq _ _ _ _ ▸ hji).1;
            exact (Prod.mk.injEq _ _ _ _ ▸ hji).2]
        exact mem_traceSpec_enabled _ _ _ _ hj
  · rw [if_neg hl] at h
    obtain ⟨j, hj, hji⟩ := List.mem_map.1 h
    obtain ⟨rfl, rfl⟩ : Phase.rawPhase = ph ∧ j = i := by
      constructor <;> [exact (Prod.mk.injEq _ _ _ _ ▸ hji).1;
        exact (Prod.mk.injEq _ _ _ _ ▸ hji).2]
    exact mem_traceSpec_enabled _ _ _ _ hj

/-- C1: for every primitive set and every Uint8Array signature and data, the
wrapped verify returns true iff at least one ENABLED entry validates the
input — entries matching the signature's candidate key-id bytes tried first
on the remainder, then raw entries on the full signature, each group in
insertion order, stopping at the first entry whose primitive reports success:
the instrumented run invokes exactly the ENABLED entries up to and including
the first succeeding one, tagged-phase invocations before raw-phase ones. -/
theorem verify_true_iff_some_enabled_entry_validates :
    (∀ (ps : PrimitiveSet) (s d : Bytes),
      verifyCore ps s d = true ↔
        ((NON_RAW_PREFIX_SIZE < s.length ∧
          ∃ e ∈ ps.getPrimitives (s.take NON_RAW_PREFIX_SIZE),
            entrySucceeds e (s.drop NON_RAW_PREFIX_SIZE) d) ∨
         ∃ e ∈ ps.getRawPrimitives, entrySucceeds e s d)) ∧
    (∀ (l : List Entry) (s d : Bytes),
      (tryVerificationT l s d).1 = tryVerification l s d ∧
      (tryVerificationT l s d).2 = traceSpec l s d) ∧
    (∀ (ps : PrimitiveSet) (s d : Bytes),
      (verifyT ps s d).1 = verifyCore ps s d ∧
      (verifyT ps s d).2 =
        if NON_RAW_PREFIX_SIZE < s.length then
          (traceSpec (ps.getPrimitives (s.take NON_RAW_PREFIX_SIZE))
              (s.drop NON_RAW_PREFIX_SIZE) d).map (fun i => (Phase.taggedPhase, i)) ++
            (if tryVerification (ps.getPrimitives (s.take NON_RAW_PREFIX_SIZE))
                (s.drop NON_RAW_PREFIX_SIZE) d then []
             else (traceSpec ps.getRawPrimitives s d).map (fun i => (Phase.rawPhase, i)))
        else (traceSpec ps.getRawPrimitives s d).map (fun i => (Phase.rawPhase, i))) :=
  ⟨verifyCore_eq_true_iff,
   fun l s d => ⟨tryVerificationT_fst l s d, tryVerificationT_snd l s d⟩,
   fun ps s d => ⟨verifyT_fst ps s d, verifyT_snd ps s d⟩⟩

/-- C3: the wrapped verify never invokes the primitive of an entry whose
status is not ENABLED, and its result is independent of such primitives:
replacing the primitives of non-ENABLED entries (statuses unchanged) leaves
the returned value unchanged, and every invocation recorded by the
instrumented run hits an ENABLED entry. -/
theorem verify_independent_of_non_enabled_primitives :
    (∀ ps ps' : PrimitiveSet,
      (∀ k, SameEnabled (ps.getPrimitives k) (ps'.getPrimitives k)) →
      SameEnabled ps.getRawPrimitives ps'.getRawPrimitives →
      ∀ sig dat : JsValue, verify ps sig dat = verify ps' sig dat) ∧
    (∀ (ps : PrimitiveSet) (s d : Bytes) (ph : Phase) (i : Nat),
      (ph, i) ∈ (verifyT ps s d).2 →
      ∃ e, (phaseEntries ps s ph)[i]? = some e ∧
        e.keyStatus = PbKeyStatusType.ENABLED) :=
  ⟨verify_congr, mem_verifyT_enabled⟩

/-- Witness for C3: a set whose only entry is DISABLED with an
always-failing primitive against one whose only entry is DISABLED with an
always-valid primitive; verify returns the same result on both. -/
theorem verify_independent_of_non_enabled_primitives_witness :
    verify
        (PrimitiveSet.mk (fun _ => [])
          [Entry.mk (fun _ _ => Except.ok false) PbKeyStatusType.DISABLED])
        (JsValue.uint8array [1, 2, 3]) (JsValue.uint8array [9]) =
      verify
        (PrimitiveSet.mk (fun _ => [])
          [Entry.mk (fun _ _ => Except.ok true) PbKeyStatusType.DISABLED])
        (JsValue.uint8array [1, 2, 3]) (JsValue.uint8array [9]) :=
  verify_independent_of_non_enabled_primitives.1
    (PrimitiveSet.mk (fun _ => [])
      [Entry.mk (fun _ _ => Except.ok false) PbKeyStatusType.DISABLED])
    (PrimitiveSet.mk (fun _ => [])
      [Entry.mk (fun _ _ => Except.ok true) PbKeyStatusType.DISABLED])
    (fun _ => trivial)
    ⟨rfl, fun h => absurd h (by decide), trivial⟩
    (JsValue.uint8array [1, 2, 3]) (JsValue.uint8array [9])

/-- C2: if no candidate entry succeeds (every ENABLED candidate's primitive
throws or reports invalid), the wrapped verify resolves to false — no
exception thrown by a candidate escapes — and the outcome is the very value
produced when the set holds no matching entry at all. -/
theorem verify_false_when_every_candidate_fails :
    ∀ (ps : PrimitiveSet) (s d : Bytes),
      (NON_RAW_PREFIX_SIZE < s.length →
        ∀ e ∈ ps.getPrimitives (s.take NON_RAW_PREFIX_SIZE),
          ¬ entrySucceeds e (s.drop NON_RAW_PREFIX_SIZE) d) →
      (∀ e ∈ ps.getRawPrimitives, ¬ entrySucceeds e s d) →
      verify ps (JsValue.uint8array s) (JsValue.uint8array d) =
        Except.ok false ∧
      verify ps (JsValue.uint8array s) (JsValue.uint8array d) =
        verify (PrimitiveSet.mk (fun _ => []) [])
          (JsValue.uint8array s) (JsValue.uint8array d) := by
  intro ps s d hpre hraw
  have hcore : verifyCore ps s d = false := by
    rw [← Bool.not_eq_true, verifyCore_eq_true_iff]
    rintro (⟨hl, e, he, hsucc⟩ | ⟨e, he, hsucc⟩)
    · exact hpre hl e he hsucc
    · exact hraw e he hsucc
  have hempty : verifyCore (PrimitiveSet.mk (fun _ => []) []) s d = false := by
    unfold verifyCore
    split <;> rfl
  have hv1 : verify ps (JsValue.uint8array s) (JsValue.uint8array d) =
      Except.ok false := by
    simp only [verify, requireUint8Array, bind, Except.bind, pure, Except.pure]
    rw [hcore]
  have hv2 : verify (PrimitiveSet.mk (fun _ => []) [])
      (JsValue.uint8array s) (JsValue.uint8array d) = Except.ok false := by
    simp only [verify, requireUint8Array, bind, Except.bind, pure, Except.pure]
    rw [hempty]
  exact ⟨hv1, hv1.trans hv2.symm⟩

/-- Witness for C2: a tagged candidate that throws plus a raw candidate that
reports invalid yield the resolved value false. -/
theorem verify_false_when_every_candidate_fails_witness :
    verify (PrimitiveSet.mk
        (fun _ => [Entry.mk (fun _ _ => Except.error "boom")
          PbKeyStatusType.ENABLED])
        [Entry.mk (fun _ _ => Except.ok false) PbKeyStatusType.ENABLED])
      (JsValue.uint8array [1, 2, 3, 4, 5, 6]) (JsValue.uint8array [7]) =
      Except.ok false :=
  (verify_false_when_every_candidate_fails
    (PrimitiveSet.mk
      (fun _ => [Entry.mk (fun _ _ => Except.error "boom")
        PbKeyStatusType.ENABLED])
      [Entry.mk (fun _ _ => Except.ok false) PbKeyStatusType.ENABLED])
    [1, 2, 3, 4, 5, 6] [7]
    (by
      intro _ e he
      simp only [List.mem_singleton] at he
      subst he
      simp [entrySucceeds])
    (by
      intro e he
      simp only [List.mem_singleton] at he
      subst he
      simp [entrySucceeds])).1

/-- C4: when the signature is longer than the non-raw prefix size and no
ENABLED entry stored under the candidate key-id bytes succeeds on the
remainder, verify falls through to the raw entries applied to the full,
unsplit signature. -/
theorem verify_falls_back_to_raw_with_full_signature :
    ∀ (ps : PrimitiveSet) (s d : Bytes),
      NON_RAW_PREFIX_SIZE < s.length →
      (∀ e ∈ ps.getPrimitives (s.take NON_RAW_PREFIX_SIZE),
        ¬ entrySucceeds e (s.drop NON_RAW_PREFIX_SIZE) d) →
      verifyCore ps s d = tryVerification ps.getRawPrimitives s d := by
  intro ps s d hl hpre
  have hv : tryVerification (ps.getPrimitives (s.take NON_RAW_PREFIX_SIZE))
      (s.drop NON_RAW_PREFIX_SIZE) d = false :=
    (tryVerification_eq_false_iff _ _ _).2 hpre
  simp [verifyCore, hl, hv]

/-- Witness for C4: a six-byte signature whose tagged candidate rejects falls
through to the raw entry, which sees the full six bytes and accepts. -/
theorem verify_falls_back_to_raw_with_full_signature_witness :
    verifyCore (PrimitiveSet.mk
        (fun _ => [Entry.mk (fun _ _ => Except.ok false)
          PbKeyStatusType.ENABLED])
        [Entry.mk (fun sg _ => Except.ok (decide (sg.length = 6)))
          PbKeyStatusType.ENABLED])
      [0, 0, 0, 0, 0, 9] [1] =
      tryVerification
        [Entry.mk (fun sg _ => Except.ok (decide (sg.length = 6)))
          PbKeyStatusType.ENABLED]
        [0, 0, 0, 0, 0, 9] [1] :=
  verify_falls_back_to_raw_with_full_signature
    (PrimitiveSet.mk
      (fun _ => [Entry.mk (fun _ _ => Except.ok false)
        PbKeyStatusType.ENABLED])
      [Entry.mk (fun sg _ => Except.ok (decide (sg.length = 6)))
        PbKeyStatusType.ENABLED])
    [0, 0, 0, 0, 0, 9] [1]
    (by decide)
    (by
      intro e he
      simp only [List.mem_singleton] at he
      subst he
      simp [entrySucceeds])

/-- C5: a signature no longer than the non-raw prefix size skips the tagged
phase entirely: the result is that of the raw entries on the full signature,
it is independent of the set's prefix index, and every recorded invocation
belongs to the raw phase. -/
theorem verify_short_signature_raw_only :
    ∀ (ps : PrimitiveSet) (s d : Bytes),
      s.length ≤ NON_RAW_PREFIX_SIZE →
      verifyCore ps s d = tryVerification ps.getRawPrimitives s d ∧
      (∀ ps' : PrimitiveSet, ps'.getRawPrimitives = ps.getRawPrimitives →
        verifyCore ps' s d = verifyCore ps s d) ∧
      (∀ x ∈ (verifyT ps s d).2, x.1 = Phase.rawPhase) := by
  intro ps s d hle
  have hl : ¬ NON_RAW_PREFIX_SIZE < s.length := not_lt.2 hle
  refine ⟨by simp [verifyCore, hl], ?_, ?_⟩
  · intro ps' hr
    simp [verifyCore, hl, hr]
  · intro x hx
    rw [verifyT_snd, if_neg hl] at hx
    obtain ⟨j, hj, rfl⟩ := List.mem_map.1 hx
    rfl

/-- Witness for C5: a three-byte signature is dispatched to the raw entries
only, even though the prefix index holds an always-accepting entry. -/
theorem verify_short_signature_raw_only_witness :
    verifyCore (PrimitiveSet.mk
        (fun _ => [Entry.mk (fun _ _ => Except.ok true)
          PbKeyStatusType.ENABLED])
        [Entry.mk (fun _ _ => Except.ok false) PbKeyStatusType.ENABLED])
      [1, 2, 3] [4] =
      tryVerification
        [Entry.mk (fun _ _ => Except.ok false) PbKeyStatusType.ENABLED]
        [1, 2, 3] [4] :=
  (verify_short_signature_raw_only
    (PrimitiveSet.mk
      (fun _ => [Entry.mk (fun _ _ => Except.ok true)
        PbKeyStatusType.ENABLED])
      [Entry.mk (fun _ _ => Except.ok false) PbKeyStatusType.ENABLED])
    [1, 2, 3] [4] (by decide)).1

/-- C9: when either argument of verify is not a Uint8Array, verify rejects
with the validator's exception, and it does so before consulting the
primitive set: the outcome is the same for every primitive set. -/
theorem verify_throws_on_non_uint8array :
    ∀ (ps : PrimitiveSet) (sig dat : JsValue),
      sig = JsValue.notUint8Array ∨ dat = JsValue.notUint8Array →
      verify ps sig dat =
        Except.error "input must be a non null Uint8Array" ∧
      (∀ ps' : PrimitiveSet, verify ps' sig dat = verify ps sig dat) := by
  intro ps sig dat h
  have key : ∀ q : PrimitiveSet,
      verify q sig dat = Except.error "input must be a non null Uint8Array" := by
    intro q
    rcases h with rfl | rfl
    · rfl
    · cases sig <;> rfl
  exact ⟨key ps, fun ps' => (key ps').trans (key ps).symm⟩

/-- Witness for C9: a non-Uint8Array signature argument makes verify reject
even when the set would accept anything. -/
theorem verify_throws_on_non_uint8array_witness :
    verify (PrimitiveSet.mk (fun _ => [])
        [Entry.mk (fun _ _ => Except.ok true) PbKeyStatusType.ENABLED])
      JsValue.notUint8Array (JsValue.uint8array [1]) =
      Except.error "input must be a non null Uint8Array" :=
  (verify_throws_on_non_uint8array
    (PrimitiveSet.mk (fun _ => [])
      [Entry.mk (fun _ _ => Except.ok true) PbKeyStatusType.ENABLED])
    JsValue.notUint8Array (JsValue.uint8array [1]) (Or.inl rfl)).1

/-- EcdsaPublicKeyManager.KEY_TYPE. -/
def KEY_TYPE : String := "type.googleapis.com/google.crypto.tink.EcdsaPublicKey"

/-- EcdsaPublicKeyManager.VERSION. -/
def VERSION : Nat := 0

/-- PbEcdsaParams: the params message; its enum-valued fields are carried as
integers, which is all getPrimitive forwards to the collaborators. -/
structure PbEcdsaParams where
  hashType : Nat
  curve : Nat
  encoding : Nat
  deriving DecidableEq, Repr

/-- PbEcdsaPublicKey: the deserialized ECDSA public-key message. A jspb bytes
getter reads back the empty value when the field is absent, so getX()/getY()
are falsy exactly on []; an absent params getter is none. -/
structure PbEcdsaPublicKey where
  version : Nat
  params : Option PbEcdsaParams
  x : Bytes
  y : Bytes
  deriving DecidableEq, Repr

/-- PbKeyData: serialized key material {typeUrl, value, keyMaterialType}. -/
structure PbKeyData where
  typeUrl : String
  value : Bytes
  keyMaterialType : Nat
  deriving DecidableEq, Repr

/-- EcdsaPublicKeyManager.getKeyProtoFromKeyData_. Protobuf deserialization
(PbEcdsaPublicKey.deserializeBinary) is an excluded external collaborator, so
it is a parameter; a throw from it is an `Except.error`. -/
def getKeyProtoFromKeyData
    (deserializeBinary : Bytes → Except String PbEcdsaPublicKey)
    (keyData : PbKeyData) : Except String PbEcdsaPublicKey :=
  if keyData.typeUrl ≠ KEY_TYPE then
    Except.error ("Key type " ++ keyData.typeUrl ++
      " is not supported. This key manager supports " ++ KEY_TYPE ++ ".")
  else
    match deserializeBinary keyData.value with
    | Except.error _ =>
      Except.error ("Input cannot be parsed as " ++ KEY_TYPE ++ " key-proto.")
    | Except.ok key =>
      if key.params = none ∨ key.x = [] ∨ key.y = [] then
        Except.error ("Input cannot be parsed as " ++ KEY_TYPE ++ " key-proto.")
      else Except.ok key

/-- The dynamic key argument of getPrimitive: a PbKeyData instance, a
PbEcdsaPublicKey instance, or anything else. -/
inductive KeyMaterial
  | keyData (kd : PbKeyData)
  | ecdsaPublicKey (key : PbEcdsaPublicKey)
  | otherMaterial

/-- EcdsaPublicKeyManager.getKeyProto_: dispatch on the runtime type of the
key argument. -/
def getKeyProto (deserializeBinary : Bytes → Except String PbEcdsaPublicKey) :
    KeyMaterial → Except String PbEcdsaPublicKey
  | KeyMaterial.keyData kd => getKeyProtoFromKeyData deserializeBinary kd
  | KeyMaterial.ecdsaPublicKey key => Except.ok key
  | KeyMaterial.otherMaterial =>
    Except.error ("Key type is not supported. This key manager supports " ++
      KEY_TYPE ++ ".")

/-- The primitive-type token passed to getPrimitive, compared against the
manager's SUPPORTED_PRIMITIVE_ (the PublicKeyVerify constructor). -/
inductive PrimitiveTypeTag
  | publicKeyVerifyTag
  | otherTag
  deriving DecidableEq, Repr

/-- EcdsaPublicKeyManager.getPrimitive. The collaborators living outside
src/ (EcdsaUtil.validatePublicKey, EcdsaUtil.getJsonWebKeyFromProto,
Util.hashTypeProtoToString, EcdsaUtil.encodingTypeProtoToEnum,
ecdsaVerify.fromJsonWebKey) are abstract parameters over abstract result
types; a throw from any of them is an `Except.error`. Reading the hash type
off an absent params field is the JavaScript TypeError. -/
def getPrimitive {Jwk Enc Verifier : Type}
    (deserializeBinary : Bytes → Except String PbEcdsaPublicKey)
    (validatePublicKey : PbEcdsaPublicKey → Nat → Except String Unit)
    (getJsonWebKeyFromProto : PbEcdsaPublicKey → Except String Jwk)
    (hashTypeProtoToString : Nat → Except String String)
    (encodingTypeProtoToEnum : Nat → Except String Enc)
    (fromJsonWebKey : Jwk → String → Enc → Except String Verifier)
    (primitiveType : PrimitiveTypeTag) (key : KeyMaterial) :
    Except String Verifier :=
  if primitiveType ≠ PrimitiveTypeTag.publicKeyVerifyTag then
    Except.error
      "Requested primitive type which is not supported by this key manager."
  else do
    let keyProto ← getKeyProto deserializeBinary key
    let _ ← validatePublicKey keyProto VERSION
    let jwk ← getJsonWebKeyFromProto keyProto
    match keyProto.params with
    | none => Except.error "TypeError: cannot read a field of an absent params"
    | some p => do
      let hash ← hashTypeProtoToString p.hashType
      let encoding ← encodingTypeProtoToEnum p.encoding
      fromJsonWebKey jwk hash encoding

/-- EcdsaPublicKeyManager.doesSupport. -/
def doesSupport (keyType : String) : Bool :=
  keyType == KEY_TYPE

/-- A JavaScript argument as handed to the key factory, including the empty
and null cases the claim calls out. -/
inductive JsArg
  | jsNull
  | jsUndefined
  | jsBytes (bytes : Bytes)
  | jsString (s : String)
  | jsOtherArg

/-- EcdsaPublicKeyFactory.newKey: unconditionally throws. -/
def newKey (keyFormat : JsArg) : Except String PbEcdsaPublicKey :=
  Except.error ("This operation is not supported for public keys. " ++
    "Use EcdsaPrivateKeyManager to generate new keys.")

/-- EcdsaPublicKeyFactory.newKeyData: unconditionally throws. -/
def newKeyData (serializedKeyFormat : JsArg) : Except String PbKeyData :=
  Except.error ("This operation is not supported for public keys. " ++
    "Use EcdsaPrivateKeyManager to generate new keys.")

theorem getPrimitive_error_of_getKeyProto_error {Jwk Enc Verifier : Type}
    (deserializeBinary : Bytes → Except String PbEcdsaPublicKey)
    (validatePublicKey : PbEcdsaPublicKey → Nat → Except String Unit)
    (getJsonWebKeyFromProto : PbEcdsaPublicKey → Except String Jwk)
    (hashTypeProtoToString : Nat → Except String String)
    (encodingTypeProtoToEnum : Nat → Except String Enc)
    (fromJsonWebKey : Jwk → String → Enc → Except String Verifier)
    (pt : PrimitiveTypeTag) (key : KeyMaterial) (m : String)
    (h : getKeyProto deserializeBinary key = Except.error m) :
    ∃ msg, getPrimitive deserializeBinary validatePublicKey
      getJsonWebKeyFromProto hashTypeProtoToString encodingTypeProtoToEnum
      fromJsonWebKey pt key = Except.error msg := by
  cases pt with
  | otherTag => exact ⟨_, rfl⟩
  | publicKeyVerifyTag =>
    refine ⟨m, ?_⟩
    simp [getPrimitive, h, bind, Except.bind]

/-- C6: a serialized key-data input whose typeUrl differs from the declared
key type is rejected with an error regardless of the payload bytes — both at
getKeyProtoFromKeyData_ and through getPrimitive — and doesSupport returns
true exactly for the declared key type string. -/
theorem wrong_key_type_always_rejected :
    (∀ (deserializeBinary : Bytes → Except String PbEcdsaPublicKey)
        (kd : PbKeyData), kd.typeUrl ≠ KEY_TYPE →
      getKeyProtoFromKeyData deserializeBinary kd =
        Except.error ("Key type " ++ kd.typeUrl ++
          " is not supported. This key manager supports " ++ KEY_TYPE ++ ".")) ∧
    (∀ {Jwk Enc Verifier : Type}
        (deserializeBinary : Bytes → Except String PbEcdsaPublicKey)
        (validatePublicKey : PbEcdsaPublicKey → Nat → Except String Unit)
        (getJsonWebKeyFromProto : PbEcdsaPublicKey → Except String Jwk)
        (hashTypeProtoToString : Nat → Except String String)
        (encodingTypeProtoToEnum : Nat → Except String Enc)
        (fromJsonWebKey : Jwk → String → Enc → Except String Verifier)
        (pt : PrimitiveTypeTag) (kd : PbKeyData), kd.typeUrl ≠ KEY_TYPE →
      ∃ msg, getPrimitive deserializeBinary validatePublicKey
        getJsonWebKeyFromProto hashTypeProtoToString encodingTypeProtoToEnum
        fromJsonWebKey pt (KeyMaterial.keyData kd) = Except.error msg) ∧
    (∀ kt : String, doesSupport kt = true ↔ kt = KEY_TYPE) := by
  refine ⟨?_, ?_, ?_⟩
  · intro deserializeBinary kd h
    rw [getKeyProtoFromKeyData, if_pos h]
  · intro Jwk Enc Verifier dB vPK gJwk h2s e2e fJwk pt kd h
    refine getPrimitive_error_of_getKeyProto_error dB vPK gJwk h2s e2e fJwk pt
      (KeyMaterial.keyData kd)
      ("Key type " ++ kd.typeUrl ++
        " is not supported. This key manager supports " ++ KEY_TYPE ++ ".") ?_
    show getKeyProtoFromKeyData dB kd = _
    rw [getKeyProtoFromKeyData, if_pos h]
  · intro kt
    simp [doesSupport]

/-- Witness for C6: a key data with typeUrl "wrong" is rejected whatever the
deserializer would have produced, and doesSupport accepts the declared type. -/
theorem wrong_key_type_always_rejected_witness :
    getKeyProtoFromKeyData (fun _ => Except.error "unused")
        (PbKeyData.mk "wrong" [1, 2] 0) =
      Except.error ("Key type " ++ "wrong" ++
        " is not supported. This key manager supports " ++ KEY_TYPE ++ ".") :=
  wrong_key_type_always_rejected.1 (fun _ => Except.error "unused")
    (PbKeyData.mk "wrong" [1, 2] 0) (by decide)

/-- C7: with the correct typeUrl, key data whose bytes fail to deserialize,
or deserialize to a key missing the params field or either coordinate,
is rejected with an error — at getKeyProtoFromKeyData_ and through
getPrimitive — rather than yielding a key. -/
theorem malformed_key_rejected :
    (∀ (deserializeBinary : Bytes → Except String PbEcdsaPublicKey)
        (kd : PbKeyData), kd.typeUrl = KEY_TYPE →
      (∃ m, deserializeBinary kd.value = Except.error m) →
      getKeyProtoFromKeyData deserializeBinary kd =
        Except.error ("Input cannot be parsed as " ++ KEY_TYPE ++
          " key-proto.")) ∧
    (∀ (deserializeBinary : Bytes → Except String PbEcdsaPublicKey)
        (kd : PbKeyData) (k : PbEcdsaPublicKey), kd.typeUrl = KEY_TYPE →
      deserializeBinary kd.value = Except.ok k →
      (k.params = none ∨ k.x = [] ∨ k.y = []) →
      getKeyProtoFromKeyData deserializeBinary kd =
        Except.error ("Input cannot be parsed as " ++ KEY_TYPE ++
          " key-proto.")) ∧
    (∀ {Jwk Enc Verifier : Type}
        (deserializeBinary : Bytes → Except String PbEcdsaPublicKey)
        (validatePublicKey : PbEcdsaPublicKey → Nat → Except String Unit)
        (getJsonWebKeyFromProto : PbEcdsaPublicKey → Except String Jwk)
        (hashTypeProtoToString : Nat → Except String String)
        (encodingTypeProtoToEnum : Nat → Except String Enc)
        (fromJsonWebKey : Jwk → String → Enc → Except String Verifier)
        (pt : PrimitiveTypeTag) (kd : PbKeyData), kd.typeUrl = KEY_TYPE →
      ((∃ m, deserializeBinary kd.value = Except.error m) ∨
       (∃ k, deserializeBinary kd.value = Except.ok k ∧
         (k.params = none ∨ k.x = [] ∨ k.y = []))) →
      ∃ msg, getPrimitive deserializeBinary validatePublicKey
        getJsonWebKeyFromProto hashTypeProtoToString encodingTypeProtoToEnum
        fromJsonWebKey pt (KeyMaterial.keyData kd) = Except.error msg) := by
  have part1 : ∀ (deserializeBinary : Bytes → Except String PbEcdsaPublicKey)
      (kd : PbKeyData), kd.typeUrl = KEY_TYPE →
      (∃ m, deserializeBinary kd.value = Except.error m) →
      getKeyProtoFromKeyData deserializeBinary kd =
        Except.error ("Input cannot be parsed as " ++ KEY_TYPE ++
          " key-proto.") := by
    intro dB kd ht hm
    obtain ⟨m0, hm⟩ := hm
    rw [getKeyProtoFromKeyData, if_neg (by simp [ht]), hm]
  have part2 : ∀ (deserializeBinary : Bytes → Except String PbEcdsaPublicKey)
      (kd : PbKeyData) (k : PbEcdsaPublicKey), kd.typeUrl = KEY_TYPE →
      deserializeBinary kd.value = Except.ok k →
      (k.params = none ∨ k.x = [] ∨ k.y = []) →
      getKeyProtoFromKeyData deserializeBinary kd =
        Except.error ("Input cannot be parsed as " ++ KEY_TYPE ++
          " key-proto.") := by
    intro dB kd k ht hk hbad
    rw [getKeyProtoFromKeyData, if_neg (by simp [ht]), hk]
    simp [hbad]
  refine ⟨part1, part2, ?_⟩
  intro Jwk Enc Verifier dB vPK gJwk h2s e2e fJwk pt kd ht hcase
  refine getPrimitive_error_of_getKeyProto_error dB vPK gJwk h2s e2e fJwk pt
    (KeyMaterial.keyData kd)
    ("Input cannot be parsed as " ++ KEY_TYPE ++ " key-proto.") ?_
  show getKeyProtoFromKeyData dB kd = _
  rcases hcase with hm | ⟨k, hk, hbad⟩
  · exact part1 dB kd ht hm
  · exact part2 dB kd k ht hk hbad

/-- Witness for C7: with the declared typeUrl, a deserializer that throws and
a deserializer that yields a key with no params field both make
getKeyProtoFromKeyData_ fail. -/
theorem malformed_key_rejected_witness :
    getKeyProtoFromKeyData (fun _ => Except.error "truncated")
        (PbKeyData.mk KEY_TYPE [1] 0) =
      Except.error ("Input cannot be parsed as " ++ KEY_TYPE ++
        " key-proto.") ∧
    getKeyProtoFromKeyData
        (fun _ => Except.ok (PbEcdsaPublicKey.mk 0 none [1] [2]))
        (PbKeyData.mk KEY_TYPE [1] 0) =
      Except.error ("Input cannot be parsed as " ++ KEY_TYPE ++
        " key-proto.") :=
  ⟨malformed_key_rejected.1 (fun _ => Except.error "truncated")
      (PbKeyData.mk KEY_TYPE [1] 0) rfl ⟨"truncated", rfl⟩,
   malformed_key_rejected.2.1
      (fun _ => Except.ok (PbEcdsaPublicKey.mk 0 none [1] [2]))
      (PbKeyData.mk KEY_TYPE [1] 0) (PbEcdsaPublicKey.mk 0 none [1] [2])
      rfl rfl (Or.inl rfl)⟩

/-- C8: both newKey and newKeyData of the public-key factory fail with the
unsupported-operation exception on every input, including null and empty,
and so never produce key material. -/
theorem new_key_operations_always_fail :
    ∀ a : JsArg,
      newKey a = Except.error
        ("This operation is not supported for public keys. " ++
          "Use EcdsaPrivateKeyManager to generate new keys.") ∧
      newKeyData a = Except.error
        ("This operation is not supported for public keys. " ++
          "Use EcdsaPrivateKeyManager to generate new keys.") :=
  fun _ => ⟨rfl, rfl⟩

/-- C10: getPrimitive accepts an already-parsed PbEcdsaPublicKey unchanged —
no typeUrl guard and no decode checks are applied to it, whatever the
deserializer would do — while an argument that is neither key data nor a
parsed key makes getKeyProto_ throw and hence getPrimitive fail. -/
theorem parsed_key_message_accepted_directly :
    (∀ (deserializeBinary : Bytes → Except String PbEcdsaPublicKey)
        (k : PbEcdsaPublicKey),
      getKeyProto deserializeBinary (KeyMaterial.ecdsaPublicKey k) =
        Except.ok k) ∧
    (∀ deserializeBinary : Bytes → Except String PbEcdsaPublicKey,
      getKeyProto deserializeBinary KeyMaterial.otherMaterial =
        Except.error ("Key type is not supported. This key manager supports " ++
          KEY_TYPE ++ ".")) ∧
    (∀ {Jwk Enc Verifier : Type}
        (deserializeBinary : Bytes → Except String PbEcdsaPublicKey)
        (validatePublicKey : PbEcdsaPublicKey → Nat → Except String Unit)
        (getJsonWebKeyFromProto : PbEcdsaPublicKey → Except String Jwk)
        (hashTypeProtoToString : Nat → Except String String)
        (encodingTypeProtoToEnum : Nat → Except String Enc)
        (fromJsonWebKey : Jwk → String → Enc → Except String Verifier)
        (pt : PrimitiveTypeTag),
      ∃ msg, getPrimitive deserializeBinary validatePublicKey
        getJsonWebKeyFromProto hashTypeProtoToString encodingTypeProtoToEnum
        fromJsonWebKey pt KeyMaterial.otherMaterial = Except.error msg) := by
  refine ⟨fun _ _ => rfl, fun _ => rfl, ?_⟩
  intro Jwk Enc Verifier dB vPK gJwk h2s e2e fJwk pt
  exact getPrimitive_error_of_getKeyProto_error dB vPK gJwk h2s e2e fJwk pt
    KeyMaterial.otherMaterial _ rfl

end Tink
